import Mathlib

/-!
# Verification of the Speak2SQL core against its specification

Shallow embedding of the parts of the Speak2SQL repository that the
specification's testable properties talk about:

* `src/database.py` — `DatabaseConnection.validate_sql` (the SQL sanitizer),
  `DatabaseConnection.detect_operation_type`, `DatabaseConnection.execute_query`,
  `DatabaseConnection.execute_transaction`, and the binary-cell rendering of
  `DatabaseConnection.get_schema_info`;
* `src/utils.py` — the `OperationHistory` state machine (`add_operation`,
  `can_undo`, `can_redo`, `get_previous_operation`, `get_next_operation`,
  `save_to_file`, `load_from_file`);
* `src/openai_handler.py` — the JSON-object validation step of
  `OpenAIHandler.natural_to_modify_sql`.

Python strings are modelled as `List Char` (wrapped in `String` at the theorem
level), Python `int` as `Int`, Python `None`-able values as `Option`, raised
exceptions as `Option`/error results, and the file system / database driver /
completion provider as explicit inputs.
-/

namespace Speak2SQL

/-! ## Python string primitives

`pySpace` is the ASCII part of Python's `str.isspace` character class used by
`str.strip()` / `str.rstrip()` (non-ASCII whitespace never occurs in the
sanitizer's inputs of interest). `str.strip(chars)` removes *all* leading and
trailing characters drawn from `chars`; `str.rstrip()` removes all trailing
whitespace. -/

def pySpace (c : Char) : Bool :=
  c == ' ' || c == '\t' || c == '\n' || c == '\r' || c == '\x0b' || c == '\x0c'

def quoteChar (c : Char) : Bool :=
  c == '\'' || c == '"'

/-- Python `s.lstrip(chars)` with the character class `p`. -/
def pyLstripBy (p : Char → Bool) (l : List Char) : List Char :=
  l.dropWhile p

/-- Python `s.rstrip(chars)` with the character class `p`. -/
def pyRstripBy (p : Char → Bool) (l : List Char) : List Char :=
  (l.reverse.dropWhile p).reverse

/-- Python `s.strip(chars)` with the character class `p`. -/
def pyStripBy (p : Char → Bool) (l : List Char) : List Char :=
  pyRstripBy p (pyLstripBy p l)

/-- Python `s.strip('\x27"')` (quote stripping), `src/database.py` line 54. -/
def pyStripQuotes (l : List Char) : List Char :=
  pyStripBy quoteChar l

/-- Python `s.rstrip()` (trailing-whitespace stripping). -/
def pyRstrip (l : List Char) : List Char :=
  pyRstripBy pySpace l

/-- Python `s.endswith(c)` for a one-character suffix. -/
def endsWith (c : Char) (l : List Char) : Bool :=
  l.getLast? == some c

/-- `true` iff the list ends in `c` and the character before that (if any) is
not `c`: "ends with exactly one trailing `c`". -/
def endsWithOne (c : Char) (l : List Char) : Bool :=
  match l.reverse with
  | [] => false
  | d :: rest => d == c && !(rest.head? == some c)

/-- Lines 56–58 of `src/database.py` (also lines 346–348 of
`src/openai_handler.py`): append a semicolon unless the right-stripped string
already ends with one.  Note that when the right-stripped string ends with
`;` the *unstripped* string is returned unchanged. -/
def ensureSemicolon (l : List Char) : List Char :=
  if endsWith ';' (pyRstrip l) then l else pyRstrip l ++ [';']

/-! ## The comment-removal regexes

`re.sub(r'/\x2a.*?\x2a/', '', q, flags=re.DOTALL)` removes every non-greedy
block comment: scanning left to right, on seeing `/` followed by `*` the
nearest following `*/` closes the match and the whole span is deleted,
scanning resuming after it; if no `*/` follows, scanning moves on one
character.  `re.sub(r'--.*?$', '', q, flags=re.MULTILINE)` deletes every `--`
together with the rest of its line (up to but excluding the newline).  Both
are written with explicit fuel so that they are structurally recursive and
evaluate by kernel reduction; fuel `l.length` always suffices because each
recursive call is on a strictly shorter list. -/

/-- Find the first `*/` and return what follows it. -/
def findClose : List Char → Option (List Char)
  | [] => none
  | c :: rest =>
    if c = '*' ∧ rest.head? = some '/' then some rest.tail else findClose rest

def subBlockF : Nat → List Char → List Char
  | 0, l => l
  | _ + 1, [] => []
  | fuel + 1, c :: rest =>
    if c = '/' ∧ rest.head? = some '*' then
      match findClose rest.tail with
      | some rest2 => subBlockF fuel rest2
      | none => c :: subBlockF fuel rest
    else
      c :: subBlockF fuel rest

/-- `re.sub(r'/\x2a.*?\x2a/', '', q, flags=re.DOTALL)`. -/
def subBlock (l : List Char) : List Char :=
  subBlockF l.length l

def subLineF : Nat → List Char → List Char
  | 0, l => l
  | _ + 1, [] => []
  | fuel + 1, c :: rest =>
    if c = '-' ∧ rest.head? = some '-' then
      subLineF fuel (rest.tail.dropWhile (fun d => d != '\n'))
    else
      c :: subLineF fuel rest

/-- `re.sub(r'--.*?$', '', q, flags=re.MULTILINE)`. -/
def subLine (l : List Char) : List Char :=
  subLineF l.length l

/-- `DatabaseConnection.validate_sql`, `src/database.py` lines 51–66:
strip one run of surrounding quotes, ensure a trailing semicolon, then remove
block comments and line comments (in that order). -/
def validate_sql_chars (q : List Char) : List Char :=
  let q1 := pyStripQuotes q
  let q2 := ensureSemicolon q1
  let q3 := subBlock q2
  subLine q3

/-- `DatabaseConnection.validate_sql` at the `String` level. -/
def validate_sql (s : String) : String :=
  ⟨validate_sql_chars s.data⟩

/-- `true` iff the list contains the two-character sequence `a` then `b`. -/
def hasPair (a b : Char) : List Char → Bool
  | [] => false
  | c :: rest => (c == a && rest.head? == some b) || hasPair a b rest

/-- `true` iff the list contains a `/*` with a matching `*/` somewhere after
it — a `/*...*/` block-comment fragment. -/
def hasBlockFragment : List Char → Bool
  | [] => false
  | c :: rest =>
    (c == '/' && rest.head? == some '*' && hasPair '*' '/' rest.tail)
      || hasBlockFragment rest

/-! ## Python sequence primitives for the history engine -/

/-- Python `xs[:stop]`: a negative `stop` counts from the end, clamped at 0;
a `stop` past the end yields the whole list. -/
def pySliceTo (stop : Int) (xs : List α) : List α :=
  if stop < 0 then xs.take ((xs.length + stop).toNat) else xs.take stop.toNat

/-- Python `xs[i]`: a negative `i` in `[-len, 0)` indexes from the end;
`none` models an `IndexError`. -/
def pyGet (xs : List α) (i : Int) : Option α :=
  if 0 ≤ i then xs.get? i.toNat
  else if 0 ≤ i + xs.length then xs.get? (i + xs.length).toNat
  else none

/-! ## `OperationHistory` (`src/utils.py` lines 53–171)

One history entry is the Python dict built in `add_operation`; its seven keys
become record fields.  The `timestamp` value
(`datetime.datetime.now().strftime(...)`) is an input of the model.
`affected_rows` is a Python int, `result` and `rollback_sql` may be `None`. -/

structure Operation where
  timestamp : String
  operation_type : String
  sql : String
  natural_query : String
  affected_rows : Int
  result : Option String
  rollback_sql : Option String
deriving DecidableEq, Repr

structure OperationHistory where
  history : List Operation
  current_index : Int
  max_history : Nat
deriving DecidableEq, Repr

/-- `OperationHistory.__init__(max_history=100)`. -/
def OperationHistory.init (max_history : Nat := 100) : OperationHistory :=
  { history := [], current_index := -1, max_history := max_history }

/-- `OperationHistory.can_undo`: `current_index >= 0`. -/
def can_undo (h : OperationHistory) : Bool :=
  decide (0 ≤ h.current_index)

/-- `OperationHistory.can_redo`: `current_index < len(history) - 1`. -/
def can_redo (h : OperationHistory) : Bool :=
  decide (h.current_index < (h.history.length : Int) - 1)

/-- `OperationHistory.add_operation`, `src/utils.py` lines 66–103: truncate
after the cursor when the cursor is not at the tail, append the new record,
evict from the front when over capacity, and move the cursor to the tail.
`now` models `datetime.datetime.now().strftime(...)`.  Returns the created
record together with the new state (the source returns `operation`). -/
def add_operation (h : OperationHistory) (now operation_type query natural_query : String)
    (affected_rows : Int := 0) (result : Option String := none)
    (rollback_sql : Option String := none) : Operation × OperationHistory :=
  let hist0 :=
    if h.current_index < (h.history.length : Int) - 1 then
      pySliceTo (h.current_index + 1) h.history
    else h.history
  let operation : Operation :=
    { timestamp := now, operation_type := operation_type, sql := query,
      natural_query := natural_query, affected_rows := affected_rows,
      result := result, rollback_sql := rollback_sql }
  let hist1 := hist0 ++ [operation]
  let hist2 := if hist1.length > h.max_history then hist1.drop 1 else hist1
  (operation, { h with history := hist2, current_index := (hist2.length : Int) - 1 })

/-- `OperationHistory.get_previous_operation`, lines 113–120: if `can_undo()`
fails return `None` unchanged; otherwise return `history[current_index]` and
decrement the cursor.  The inner `none` branch models the `IndexError` Python
would raise on an out-of-range cursor (the cursor is not decremented then,
since the read precedes the decrement); it is unreachable for in-range
cursors. -/
def get_previous_operation (h : OperationHistory) : Option Operation × OperationHistory :=
  if can_undo h then
    match pyGet h.history h.current_index with
    | some op => (some op, { h with current_index := h.current_index - 1 })
    | none => (none, h)
  else (none, h)

/-- `OperationHistory.get_next_operation`, lines 122–128: if `can_redo()`
fails return `None` unchanged; otherwise increment the cursor and return
`history[current_index]`.  The inner `none` branch models the `IndexError`
Python would raise after the increment. -/
def get_next_operation (h : OperationHistory) : Option Operation × OperationHistory :=
  if can_redo h then
    match pyGet h.history (h.current_index + 1) with
    | some op => (some op, { h with current_index := h.current_index + 1 })
    | none => (none, { h with current_index := h.current_index + 1 })
  else (none, h)

/-! ## History persistence (`src/utils.py` lines 147–171)

`save_to_file` writes `json.dump(self.history, ...)`: a JSON array of objects
whose values are strings, an int, and two nullable strings.  `JValue` models
exactly those scalar JSON values. -/

inductive JValue where
  | jnull : JValue
  | jstr : String → JValue
  | jint : Int → JValue
deriving DecidableEq, Repr

def jopt : Option String → JValue
  | none => .jnull
  | some s => .jstr s

/-- The JSON object `json.dump` writes for one history entry (key order as in
the dict literal of `add_operation`). -/
def opToJson (op : Operation) : List (String × JValue) :=
  [("timestamp", .jstr op.timestamp),
   ("operation_type", .jstr op.operation_type),
   ("sql", .jstr op.sql),
   ("natural_query", .jstr op.natural_query),
   ("affected_rows", .jint op.affected_rows),
   ("result", jopt op.result),
   ("rollback_sql", jopt op.rollback_sql)]

/-- Python dict lookup on the parsed JSON object. -/
def jlookup (key : String) : List (String × JValue) → Option JValue
  | [] => none
  | (k, v) :: rest => if k = key then some v else jlookup key rest

def asStr : Option JValue → Option String
  | some (.jstr s) => some s
  | _ => none

def asInt : Option JValue → Option Int
  | some (.jint n) => some n
  | _ => none

def asOptStr : Option JValue → Option (Option String)
  | some (.jstr s) => some (some s)
  | some .jnull => some none
  | _ => none

/-- Decode one parsed JSON object back into a history entry. -/
def opFromJson (fields : List (String × JValue)) : Option Operation := do
  let timestamp ← asStr (jlookup "timestamp" fields)
  let operation_type ← asStr (jlookup "operation_type" fields)
  let sql ← asStr (jlookup "sql" fields)
  let natural_query ← asStr (jlookup "natural_query" fields)
  let affected_rows ← asInt (jlookup "affected_rows" fields)
  let result ← asOptStr (jlookup "result" fields)
  let rollback_sql ← asOptStr (jlookup "rollback_sql" fields)
  pure { timestamp := timestamp, operation_type := operation_type, sql := sql,
         natural_query := natural_query, affected_rows := affected_rows,
         result := result, rollback_sql := rollback_sql }

/-- Decode a parsed JSON array of objects back into history entries;
`none` when some element is not operation-shaped. -/
def decodeOps : List (List (String × JValue)) → Option (List Operation)
  | [] => some []
  | o :: rest =>
    match opFromJson o, decodeOps rest with
    | some op, some ops => some (op :: ops)
    | _, _ => none

/-- `OperationHistory.save_to_file` (success path), lines 147–156: the JSON
array written to disk, one object per history entry. -/
def save_to_file (h : OperationHistory) : List (List (String × JValue)) :=
  h.history.map opToJson

/-- What `load_from_file` finds at the path: no file (`FileNotFoundError`),
an unreadable/unparsable file (any other exception from `open`/`json.load`),
or a parsed JSON array of objects. -/
inductive LoadInput where
  | missing : LoadInput
  | unreadable : LoadInput
  | parsed : List (List (String × JValue)) → LoadInput
deriving DecidableEq, Repr

/-- `OperationHistory.load_from_file`, lines 158–171: on `FileNotFoundError`
or any read/parse exception, return `False` leaving the state untouched (the
assignment to `self.history` never ran); on success replace the history and
set the cursor to `len(history) - 1`, or `-1` for an empty array.  A parsed
array whose elements are not operation-shaped objects is modelled like an
unreadable file (the source would store the raw values untyped). -/
def load_from_file (h : OperationHistory) : LoadInput → OperationHistory × Bool
  | .missing => (h, false)
  | .unreadable => (h, false)
  | .parsed content =>
    match decodeOps content with
    | some ops =>
      ({ h with
          history := ops
          current_index := (if ops.isEmpty then (-1 : Int) else (ops.length : Int) - 1) },
       true)
    | none => (h, false)

/-- `load(save(log))`: saving a history and loading the result back into the
same `OperationHistory` object. -/
def saveLoad (h : OperationHistory) : OperationHistory :=
  (load_from_file h (.parsed (save_to_file h))).1

/-! ## Execution engine (`src/database.py`)

A database cell value as the MySQL driver hands it back: an integer, a
string, raw binary (`bytes`), or SQL `NULL` (`None`). -/

inductive Value where
  | vInt : Int → Value
  | vStr : String → Value
  | vBytes : List Nat → Value
  | vNull : Value
deriving DecidableEq, Repr

def Value.isBytes : Value → Bool
  | .vBytes _ => true
  | _ => false

/-- `DatabaseConnection.detect_operation_type`, `src/database.py` lines
357–383: purely lexical classification by `strip().upper()` prefix. -/
def detect_operation_type (sql : String) : String :=
  let s : String := ⟨(pyStripBy pySpace sql.data).map Char.toUpper⟩
  if s.startsWith "SELECT" then "SELECT"
  else if s.startsWith "INSERT" then "INSERT"
  else if s.startsWith "UPDATE" then "UPDATE"
  else if s.startsWith "DELETE" then "DELETE"
  else if s.startsWith "CREATE TABLE" then "CREATE"
  else if s.startsWith "ALTER TABLE" then "ALTER"
  else if s.startsWith "DROP TABLE" then "DROP"
  else "UNKNOWN"

/-- What one `cursor.execute(sql)` produces: the database state with this
statement's (still uncommitted) effect applied, the fetched rows with their
column names (empty for non-reads), and `cursor.rowcount`. -/
structure ExecEffect (δ : Type) where
  newDb : δ
  columns : List String
  rows : List (List Value)
  rowcount : Int

/-- A driver: executes one statement against an uncommitted working state,
or raises `mysql.connector.Error` with a message. -/
def Driver (δ : Type) : Type :=
  String → δ → Except String (ExecEffect δ)

/-- One element of the `results` list of `execute_transaction`: a
`DataFrame` for a `SELECT`, otherwise the operation kind with the affected
row count. -/
inductive TxResult where
  | selectRes : List String → List (List Value) → TxResult
  | modifyRes : String → Int → TxResult
deriving DecidableEq, Repr

/-- The `for sql in sql_list` loop of `execute_transaction`
(`src/database.py` lines 322–339): execute each statement in order against
the working state, collecting per-statement results; the first driver error
aborts the loop. -/
def runStatements (exec : Driver δ) : List String → δ → Except String (δ × List TxResult)
  | [], db => .ok (db, [])
  | sql :: rest, db =>
    match exec sql db with
    | .error e => .error e
    | .ok eff =>
      let res :=
        if (detect_operation_type sql).startsWith "SELECT" then
          TxResult.selectRes eff.columns eff.rows
        else
          TxResult.modifyRes (detect_operation_type sql) eff.rowcount
      match runStatements exec rest eff.newDb with
      | .error e => .error e
      | .ok (db', results) => .ok (db', res :: results)

/-- The connection's transactional state: `committed` is what the server has
durably applied, `working` additionally carries effects of statements
executed but not yet committed.  `connection.commit()` publishes `working`;
`connection.rollback()` resets `working` to `committed`. -/
structure Conn (δ : Type) where
  committed : δ
  working : δ
deriving DecidableEq, Repr

/-- The value `execute_transaction` returns: `(True, results)` or
`(False, error message)`. -/
inductive TxOut where
  | failure : String → TxOut
  | success : List TxResult → TxOut
deriving DecidableEq, Repr

/-- `DatabaseConnection.execute_transaction`, `src/database.py` lines
299–355: reject when not connected or when the list is empty; otherwise run
all statements on one transaction, commit on success, and roll back on any
`mysql.connector.Error`, surfacing the message.  The pair returned is the
connection state afterwards together with the Python return value. -/
def execute_transaction (exec : Driver δ) (dbc : Option (Conn δ)) (sql_list : List String) :
    Option (Conn δ) × TxOut :=
  match dbc with
  | none => (none, .failure "database not connected")
  | some conn =>
    if sql_list.isEmpty then (some conn, .failure "no SQL statements to execute")
    else
      match runStatements exec sql_list conn.working with
      | .ok (db', results) =>
        (some { committed := db', working := db' }, .success results)
      | .error e =>
        (some { committed := conn.committed, working := conn.committed }, .failure e)

/-- `DatabaseConnection.execute_query`, `src/database.py` lines 32–49: run
the sanitized statement and wrap the fetched rows in a `DataFrame`
*unchanged* — no cell value is rewritten.  `exec` returning `.error` models
`mysql.connector.Error`, turned into `None`. -/
def execute_query (exec : Driver δ) (db : δ) (query : String) :
    Option (List String × List (List Value)) :=
  match exec (validate_sql query) db with
  | .error _ => none
  | .ok eff => some (eff.columns, eff.rows)

/-- The sample-row cell conversion of `DatabaseConnection.get_schema_info`,
`src/database.py` lines 175–184: `bytes`/`bytearray` cells become the
placeholder string `BINARY(<n> bytes)`, other non-`None` cells become
`str(value)`, and `None` stays `None`. -/
def sample_cell_to_str : Value → Option String
  | .vBytes bs => some ("BINARY(" ++ toString bs.length ++ " bytes)")
  | .vNull => none
  | .vInt n => some (toString n)
  | .vStr s => some s

/-- The per-row dict `row_data` built for `table_info['sample_data']`
(`src/database.py` lines 175–184), keyed by column name. -/
def build_sample_row (column_names : List String) (row : List Value) :
    List (String × Option String) :=
  (column_names.zip row).map (fun p => (p.1, sample_cell_to_str p.2))

/-! ## Mutation-descriptor validation (`src/openai_handler.py` lines 334–351)

`natural_to_modify_sql` parses the model reply into a JSON value; once JSON
parsing has succeeded with an object `result`, the code checks the required
fields `operation_type` and `sql` (returning `None` when either is
missing) and then normalizes `result["sql"]` exactly as the sanitizer's
first two steps do.  A non-string `sql` value makes `.strip(...)` raise,
which the surrounding handler turns into `None` as well.  The function below
is that validation step, from the parsed object onward; scalar field values
suffice for the properties considered. -/

def parse_modify_result (result : List (String × JValue)) :
    Option (List (String × JValue)) :=
  if (jlookup "operation_type" result).isNone then none
  else if (jlookup "sql" result).isNone then none
  else
    match jlookup "sql" result with
    | some (.jstr s) =>
      let cleaned : String := ⟨ensureSemicolon (pyStripQuotes s.data)⟩
      some (result.map (fun kv => if kv.1 = "sql" then (kv.1, .jstr cleaned) else kv))
    | _ => none

/-- The spec's claimed postcondition for returned read rows: no cell is a
raw binary value. -/
def rowsBinaryFree (rows : List (List Value)) : Bool :=
  rows.all (fun row => row.all (fun v => !v.isBytes))

/-! ## Concrete drivers and states used to instantiate the theorems -/

/-- A driver over a list-of-rows database: the statement `"FAIL"` raises
`mysql.connector.Error` with message `"boom"`, every other statement appends
one row and reports one affected row. -/
def demoDriver : Driver (List Nat) :=
  fun sql db =>
    if sql = "FAIL" then .error "boom"
    else .ok { newDb := db ++ [1], columns := [], rows := [], rowcount := 1 }

/-- A freshly connected transactional state with no pending work. -/
def demoConn : Conn (List Nat) :=
  { committed := [], working := [] }

/-- A driver whose single result row contains a raw binary cell. -/
def demoBinDriver : Driver Unit :=
  fun _ _ =>
    .ok { newDb := (), columns := ["b"], rows := [[Value.vBytes [1, 2, 3]]], rowcount := 0 }

/-! ## Concrete states used by the spec's worked examples -/

/-- A history entry with the given timestamp, kind, SQL and request text and
the `add_operation` defaults for the remaining fields. -/
def mkOp (ts ty sq nq : String) : Operation :=
  { timestamp := ts, operation_type := ty, sql := sq, natural_query := nq,
    affected_rows := 0, result := none, rollback_sql := none }

/-- Append operations A, B, C to a fresh history. -/
def histABC : OperationHistory :=
  (add_operation
    (add_operation
      (add_operation OperationHistory.init "tA" "SELECT" "A" "qa").2
      "tB" "SELECT" "B" "qb").2
    "tC" "SELECT" "C" "qc").2

/-- ... then `undo()` twice. -/
def histAfterUndos : OperationHistory :=
  (get_previous_operation (get_previous_operation histABC).2).2

/-- ... then `add_operation(D)`. -/
def histAfterD : OperationHistory :=
  (add_operation histAfterUndos "tD" "SELECT" "D" "qd").2

/-- A, B, C appended and then one `undo()`: three stored entries, cursor at
index 1 — a reachable state whose cursor is not at the tail. -/
def histMid : OperationHistory :=
  (get_previous_operation histABC).2

/-- Append A, B, C to a fresh history with `max_history = 2`. -/
def histCap3 : OperationHistory :=
  (add_operation
    (add_operation
      (add_operation (OperationHistory.init 2) "tA" "SELECT" "A" "qa").2
      "tB" "SELECT" "B" "qb").2
    "tC" "SELECT" "C" "qc").2

/-- The truncate-then-append intermediate list of `add_operation`
(`self.history[:current_index+1] + [operation]`, or a plain append when the
cursor is at the tail), before capacity eviction. -/
def addIntermediate (h : OperationHistory) (op : Operation) : List Operation :=
  (if h.current_index < (h.history.length : Int) - 1 then
    pySliceTo (h.current_index + 1) h.history
  else h.history) ++ [op]

/-! # Theorems

## History: branch truncation, capacity eviction, undo/redo -/

theorem add_operation_truncates (h : OperationHistory) (now ty q nq : String) (ar : Int)
    (res rb : Option String)
    (hidx : -1 ≤ h.current_index)
    (hcap : h.history.length ≤ h.max_history)
    (hcur : h.current_index < (h.history.length : Int) - 1) :
    (add_operation h now ty q nq ar res rb).2.history
        = h.history.take (h.current_index + 1).toNat
            ++ [(add_operation h now ty q nq ar res rb).1]
      ∧ can_redo (add_operation h now ty q nq ar res rb).2 = false := by
  have hx : ¬ (h.current_index + 1 < 0) := by omega
  have htake : (h.history.take (h.current_index + 1).toNat).length
      = (h.current_index + 1).toNat := by
    simp [List.length_take]; omega
  constructor
  · simp only [add_operation, pySliceTo, if_pos hcur, if_neg hx]
    simp only [List.length_append, List.length_cons, List.length_nil, htake]
    rw [if_neg (by simp [List.length_take]; omega)]
  · simp only [can_redo, add_operation, pySliceTo, if_pos hcur, if_neg hx]
    simp only [List.length_append, List.length_cons, List.length_nil, htake]
    rw [if_neg (by simp [List.length_take]; omega)]
    simp

theorem add_operation_capacity (h : OperationHistory) (now ty q nq : String) (ar : Int)
    (res rb : Option String)
    (hmax : 1 ≤ h.max_history)
    (hcap : h.history.length ≤ h.max_history) :
    (add_operation h now ty q nq ar res rb).2.history
        = (addIntermediate h (add_operation h now ty q nq ar res rb).1).drop
            ((addIntermediate h (add_operation h now ty q nq ar res rb).1).length
              - h.max_history)
      ∧ (add_operation h now ty q nq ar res rb).2.history.length ≤ h.max_history
      ∧ (add_operation h now ty q nq ar res rb).2.current_index
          = ((add_operation h now ty q nq ar res rb).2.history.length : Int) - 1
      ∧ (add_operation h now ty q nq ar res rb).2.history.getLast?
          = some (add_operation h now ty q nq ar res rb).1 := by
  have htrunc : (if h.current_index < (h.history.length : Int) - 1 then
      pySliceTo (h.current_index + 1) h.history else h.history).length
        ≤ h.history.length := by
    split
    · simp only [pySliceTo]; split <;> simp [List.length_take]
    · exact le_refl _
  set op := (add_operation h now ty q nq ar res rb).1 with hop
  set mid := addIntermediate h op with hmid
  have hsplit : ∃ trunc, mid = trunc ++ [op] ∧ trunc.length ≤ h.history.length := by
    refine ⟨_, rfl, htrunc⟩
  obtain ⟨trunc, hmideq, htl⟩ := hsplit
  have hmidlen : mid.length ≤ h.max_history + 1 := by
    rw [hmideq]; simp only [List.length_append, List.length_cons, List.length_nil]; omega
  have hdef : (add_operation h now ty q nq ar res rb).2.history
      = (if mid.length > h.max_history then mid.drop 1 else mid) := rfl
  have hcur : (add_operation h now ty q nq ar res rb).2.current_index
      = ((add_operation h now ty q nq ar res rb).2.history.length : Int) - 1 := rfl
  by_cases hc : mid.length > h.max_history
  · have h1 : mid.length = h.max_history + 1 := by omega
    have hdrop : mid.length - h.max_history = 1 := by omega
    have htr1 : 1 ≤ trunc.length := by
      rw [hmideq] at h1
      simp only [List.length_append, List.length_cons, List.length_nil] at h1
      omega
    refine ⟨?_, ?_, hcur, ?_⟩
    · rw [hdef, if_pos hc, hdrop]
    · rw [hdef, if_pos hc]; simp only [List.length_drop]; omega
    · rw [hdef, if_pos hc, hmideq, List.drop_append_of_le_length htr1]
      simp
  · have hdrop : mid.length - h.max_history = 0 := by omega
    refine ⟨?_, ?_, hcur, ?_⟩
    · rw [hdef, if_neg hc, hdrop, List.drop_zero]
    · rw [hdef, if_neg hc]; omega
    · rw [hdef, if_neg hc, hmideq]; simp

theorem undo_redo_id (h : OperationHistory)
    (h0 : 0 ≤ h.current_index)
    (h1 : h.current_index ≤ (h.history.length : Int) - 1) :
    (get_previous_operation h).1.isSome = true
      ∧ (get_next_operation (get_previous_operation h).2).1 = (get_previous_operation h).1
      ∧ (get_next_operation (get_previous_operation h).2).2.current_index
          = h.current_index := by
  have hlt : h.current_index.toNat < h.history.length := by omega
  obtain ⟨x, hx⟩ : ∃ x, h.history[h.current_index.toNat]? = some x := by
    cases hg : h.history[h.current_index.toNat]? with
    | none => exact absurd (List.getElem?_eq_none_iff.mp hg) (by omega)
    | some x => exact ⟨x, rfl⟩
  have hcu : can_undo h = true := by simp [can_undo]; omega
  have hpg : pyGet h.history h.current_index = some x := by
    simp [pyGet, if_pos h0, hx]
  have hprev : get_previous_operation h
      = (some x, { h with current_index := h.current_index - 1 }) := by
    simp [get_previous_operation, hcu, hpg]
  have hcr : can_redo { h with current_index := h.current_index - 1 } = true := by
    simp [can_redo]; omega
  have hpg2 : pyGet h.history (h.current_index - 1 + 1) = some x := by
    have : h.current_index - 1 + 1 = h.current_index := by omega
    rw [this, hpg]
  have hnext : get_next_operation { h with current_index := h.current_index - 1 }
      = (some x, { h with current_index := h.current_index - 1 + 1 }) := by
    simp only [get_next_operation, hcr, if_pos, hpg2]
  refine ⟨?_, ?_, ?_⟩
  · rw [hprev]; rfl
  · rw [hprev]; simp only [hnext]
  · rw [hprev]; simp only [hnext]; simp

/-- **C1**: appending while the cursor is not at the tail discards every
entry after the cursor before appending, and afterwards `can_redo()` is
false; in particular, after appending A, B, C, undoing twice, and adding D,
the stored sequence is exactly `[A, D]` with the cursor on D.  (The two
invariant hypotheses `-1 ≤ current_index` and `length ≤ max_history` hold in
every state reachable through the class's own operations.) -/
theorem c1_branch_truncation :
    (∀ (h : OperationHistory) (now ty q nq : String) (ar : Int) (res rb : Option String),
        -1 ≤ h.current_index →
        h.history.length ≤ h.max_history →
        h.current_index < (h.history.length : Int) - 1 →
        (add_operation h now ty q nq ar res rb).2.history
            = h.history.take (h.current_index + 1).toNat
                ++ [(add_operation h now ty q nq ar res rb).1]
          ∧ can_redo (add_operation h now ty q nq ar res rb).2 = false)
      ∧ histAfterD.history = [mkOp "tA" "SELECT" "A" "qa", mkOp "tD" "SELECT" "D" "qd"]
      ∧ histAfterD.current_index = 1
      ∧ can_redo histAfterD = false :=
  ⟨fun h now ty q nq ar res rb h1 h2 h3 =>
      add_operation_truncates h now ty q nq ar res rb h1 h2 h3,
    by decide, by decide, by decide⟩

/-- Witness for `c1_branch_truncation`: the state after two undos (cursor at
A, three stored entries) satisfies the hypotheses, and adding D truncates. -/
theorem c1_branch_truncation_witness :
    (-1 ≤ histAfterUndos.current_index
        ∧ histAfterUndos.history.length ≤ histAfterUndos.max_history
        ∧ histAfterUndos.current_index < (histAfterUndos.history.length : Int) - 1)
      ∧ ((add_operation histAfterUndos "tD" "SELECT" "D" "qd" 0 none none).2.history
            = histAfterUndos.history.take (histAfterUndos.current_index + 1).toNat
                ++ [(add_operation histAfterUndos "tD" "SELECT" "D" "qd" 0 none none).1]
          ∧ can_redo (add_operation histAfterUndos "tD" "SELECT" "D" "qd" 0 none none).2
              = false) :=
  ⟨by decide,
    c1_branch_truncation.1 histAfterUndos "tD" "SELECT" "D" "qd" 0 none none
      (by decide) (by decide) (by decide)⟩

/-- **C2**: with capacity at least 1 (and the reachable-state invariant
`length ≤ max_history`), every `add_operation` keeps the length within
`max_history`, evicts exactly from the front on overflow (the result is the
truncate-then-append list with its overflow prefix dropped), and leaves the
cursor on the newly appended tail entry; in particular with capacity 2,
appending A, B, C yields `[B, C]` with the cursor at index 1. -/
theorem c2_capacity_eviction :
    (∀ (h : OperationHistory) (now ty q nq : String) (ar : Int) (res rb : Option String),
        1 ≤ h.max_history →
        h.history.length ≤ h.max_history →
        (add_operation h now ty q nq ar res rb).2.history
            = (addIntermediate h (add_operation h now ty q nq ar res rb).1).drop
                ((addIntermediate h (add_operation h now ty q nq ar res rb).1).length
                  - h.max_history)
          ∧ (add_operation h now ty q nq ar res rb).2.history.length ≤ h.max_history
          ∧ (add_operation h now ty q nq ar res rb).2.current_index
              = ((add_operation h now ty q nq ar res rb).2.history.length : Int) - 1
          ∧ (add_operation h now ty q nq ar res rb).2.history.getLast?
              = some (add_operation h now ty q nq ar res rb).1)
      ∧ histCap3.history = [mkOp "tB" "SELECT" "B" "qb", mkOp "tC" "SELECT" "C" "qc"]
      ∧ histCap3.current_index = 1 :=
  ⟨fun h now ty q nq ar res rb h1 h2 =>
      add_operation_capacity h now ty q nq ar res rb h1 h2,
    by decide, by decide⟩

/-- Witness for `c2_capacity_eviction`: the two-entry capacity-2 state formed
by appending A then B satisfies the hypotheses, and appending C evicts A. -/
theorem c2_capacity_eviction_witness :
    (1 ≤ (OperationHistory.init 2).max_history
        ∧ (OperationHistory.init 2).history.length ≤ (OperationHistory.init 2).max_history)
      ∧ ((add_operation (OperationHistory.init 2) "tA" "SELECT" "A" "qa" 0 none none).2.history
            = (addIntermediate (OperationHistory.init 2)
                  (add_operation (OperationHistory.init 2) "tA" "SELECT" "A" "qa" 0 none none).1).drop
                ((addIntermediate (OperationHistory.init 2)
                    (add_operation (OperationHistory.init 2) "tA" "SELECT" "A" "qa" 0 none none).1).length
                  - (OperationHistory.init 2).max_history)
          ∧ (add_operation (OperationHistory.init 2) "tA" "SELECT" "A" "qa" 0 none none).2.history.length
              ≤ (OperationHistory.init 2).max_history
          ∧ (add_operation (OperationHistory.init 2) "tA" "SELECT" "A" "qa" 0 none none).2.current_index
              = ((add_operation (OperationHistory.init 2) "tA" "SELECT" "A" "qa" 0 none none).2.history.length : Int) - 1
          ∧ (add_operation (OperationHistory.init 2) "tA" "SELECT" "A" "qa" 0 none none).2.history.getLast?
              = some (add_operation (OperationHistory.init 2) "tA" "SELECT" "A" "qa" 0 none none).1) :=
  ⟨by decide,
    c2_capacity_eviction.1 (OperationHistory.init 2) "tA" "SELECT" "A" "qa" 0 none none
      (by decide) (by decide)⟩

/-- **C10**: for every state with `0 ≤ current_index ≤ length - 1`,
`get_previous_operation()` followed by `get_next_operation()` returns the
same operation record from both calls and restores `current_index`. -/
theorem c10_undo_redo_identity :
    ∀ (h : OperationHistory),
      0 ≤ h.current_index →
      h.current_index ≤ (h.history.length : Int) - 1 →
      (get_previous_operation h).1.isSome = true
        ∧ (get_next_operation (get_previous_operation h).2).1
            = (get_previous_operation h).1
        ∧ (get_next_operation (get_previous_operation h).2).2.current_index
            = h.current_index :=
  fun h h0 h1 => undo_redo_id h h0 h1

/-- Witness for `c10_undo_redo_identity` at the three-entry state with the
cursor on the tail. -/
theorem c10_undo_redo_identity_witness :
    (0 ≤ histABC.current_index
        ∧ histABC.current_index ≤ (histABC.history.length : Int) - 1)
      ∧ ((get_previous_operation histABC).1.isSome = true
          ∧ (get_next_operation (get_previous_operation histABC).2).1
              = (get_previous_operation histABC).1
          ∧ (get_next_operation (get_previous_operation histABC).2).2.current_index
              = histABC.current_index) :=
  ⟨by decide, c10_undo_redo_identity histABC (by decide) (by decide)⟩

/-! ## Persistence: round trip and load failure -/

theorem opFromJson_opToJson (op : Operation) : opFromJson (opToJson op) = some op := by
  rcases op with ⟨t, ty, sq, nq, ar, r, rb⟩
  cases r <;> cases rb <;> rfl

theorem decode_encode (ops : List Operation) :
    decodeOps (ops.map opToJson) = some ops := by
  induction ops with
  | nil => rfl
  | cons op rest ih =>
    simp [decodeOps, opFromJson_opToJson, ih]

/-- **C3 counterexample**: in the reachable state with stored entries
`[A, B, C]` and the cursor at index 1 (after one undo), saving and loading
back moves the cursor to index 2 — the cursor position is *not* reproduced. -/
theorem c3_round_trip_counterexample :
    (saveLoad histMid).history = histMid.history
      ∧ histMid.current_index = 1
      ∧ (saveLoad histMid).current_index = 2 := by decide

/-- **C3 (amended)**: `load(save(log))` reproduces the same ordered sequence
of Operation field values, but sets the cursor to the last index (or `-1`
for an empty log) rather than restoring the saved cursor position — the two
agree exactly when the cursor was already at the tail. -/
theorem c3_round_trip :
    ∀ (h : OperationHistory),
      (saveLoad h).history = h.history
        ∧ (saveLoad h).current_index = (h.history.length : Int) - 1 := by
  intro h
  unfold saveLoad load_from_file save_to_file
  simp only [decode_encode]
  constructor
  · trivial
  · show (if h.history.isEmpty then (-1 : Int) else (h.history.length : Int) - 1) = _
    cases h.history <;> simp

/-- **C8 counterexample**: loading from a missing file in a state with one
or more stored entries returns `False` but leaves the history *non-empty* —
the failed load does not empty the history. -/
theorem c8_load_failure_counterexample :
    (load_from_file histMid LoadInput.missing).2 = false
      ∧ (load_from_file histMid LoadInput.missing).1.history = histMid.history
      ∧ histMid.history ≠ [] := by decide

/-- **C8 (amended)**: a missing file or an unreadable/unparsable file makes
`load_from_file` return a non-fatal `False` without raising, leaving the
whole state (history and cursor alike) *unchanged* — so the history is empty
afterwards only when it was empty before. -/
theorem c8_load_failure_preserves_state :
    ∀ (h : OperationHistory),
      load_from_file h LoadInput.missing = (h, false)
        ∧ load_from_file h LoadInput.unreadable = (h, false) :=
  fun _ => ⟨rfl, rfl⟩

/-! ## Transaction atomicity -/

/-- **C4**: whenever executing the statement batch fails at any point (the
statement loop raises with message `e`), `execute_transaction` returns the
failure with that surfaced error and the connection state afterwards equals
the state before the call — no statement of the failed batch leaves any
effect.  The hypothesis `working = committed` says the connection had no
uncommitted work pending when the call started, which holds between
top-level calls since every path commits or rolls back. -/
theorem c4_transaction_rollback :
    ∀ (δ : Type) (exec : Driver δ) (conn : Conn δ) (sql_list : List String) (e : String),
      conn.working = conn.committed →
      runStatements exec sql_list conn.working = .error e →
      execute_transaction exec (some conn) sql_list = (some conn, .failure e) := by
  intro δ exec conn sql_list e hclean hrun
  have hstep : ∀ (s : String) (rest : List String),
      execute_transaction exec (some conn) (s :: rest)
        = match runStatements exec (s :: rest) conn.working with
          | .ok (db', results) =>
              (some { committed := db', working := db' }, TxOut.success results)
          | .error err =>
              (some { committed := conn.committed, working := conn.committed },
                TxOut.failure err) :=
    fun _ _ => rfl
  cases sql_list with
  | nil => simp [runStatements] at hrun
  | cons s rest =>
    rw [hstep s rest, hrun]
    obtain ⟨c, w⟩ := conn
    simp only at hclean
    subst hclean
    rfl

/-- Witness for `c4_transaction_rollback`: a two-statement batch whose second
statement fails rolls the whole batch back on the concrete list database. -/
theorem c4_transaction_rollback_witness :
    (demoConn.working = demoConn.committed
        ∧ runStatements demoDriver ["INSERT INTO t VALUES (1)", "FAIL"] demoConn.working
            = .error "boom")
      ∧ execute_transaction demoDriver (some demoConn) ["INSERT INTO t VALUES (1)", "FAIL"]
          = (some demoConn, .failure "boom") :=
  ⟨⟨rfl, rfl⟩,
    c4_transaction_rollback (List Nat) demoDriver demoConn
      ["INSERT INTO t VALUES (1)", "FAIL"] "boom" rfl rfl⟩

/-! ## Mutation-descriptor mandatory fields -/

/-- **C7**: once the model reply has parsed to a JSON object, a missing
`operation_type` field or a missing `sql` field makes the write-path
validation return `None` — no partial mutation descriptor is ever
returned. -/
theorem c7_mutation_missing_field :
    ∀ (result : List (String × JValue)),
      jlookup "operation_type" result = none ∨ jlookup "sql" result = none →
      parse_modify_result result = none := by
  intro result hmiss
  unfold parse_modify_result
  rcases hmiss with h | h
  · rw [h]; rfl
  · rw [h]
    by_cases hc : (jlookup "operation_type" result).isNone
    · rw [if_pos hc]
    · rw [if_neg hc]; rfl

/-- Witness for `c7_mutation_missing_field`: an object carrying only an
`sql` field (no `operation_type`) is rejected. -/
theorem c7_mutation_missing_field_witness :
    (jlookup "operation_type" [("sql", JValue.jstr "DELETE FROM t")] = none
        ∨ jlookup "sql" [("sql", JValue.jstr "DELETE FROM t")] = none)
      ∧ parse_modify_result [("sql", JValue.jstr "DELETE FROM t")] = none :=
  ⟨Or.inl (by decide),
    c7_mutation_missing_field [("sql", JValue.jstr "DELETE FROM t")] (Or.inl (by decide))⟩

/-! ## Binary cell rendering -/

/-- **C9 counterexample**: a successful `execute_query` whose result set
contains a binary cell returns that cell as the *raw* bytes value — the
returned rows are not binary-free, so no placeholder was substituted. -/
theorem c9_binary_rendering_counterexample :
    execute_query demoBinDriver () "SELECT b FROM t"
        = some (["b"], [[Value.vBytes [1, 2, 3]]])
      ∧ rowsBinaryFree [[Value.vBytes [1, 2, 3]]] = false := by decide

/-- **C9 (amended)**: `execute_query` passes the driver's fetched rows
through unchanged — no cell is rewritten; the byte-count placeholder
`BINARY(<n> bytes)` is produced only by `get_schema_info`'s sample-row
conversion (and by UI-layer display code outside the core). -/
theorem c9_binary_rendering :
    (∀ (δ : Type) (exec : Driver δ) (db : δ) (q : String) (eff : ExecEffect δ),
        exec (validate_sql q) db = .ok eff →
        execute_query exec db q = some (eff.columns, eff.rows))
      ∧ ∀ (bs : List Nat),
          sample_cell_to_str (Value.vBytes bs)
            = some ("BINARY(" ++ toString bs.length ++ " bytes)") := by
  constructor
  · intro δ exec db q eff hx
    unfold execute_query
    rw [hx]
  · intro bs
    rfl

/-- Witness for `c9_binary_rendering`: the binary-row driver's output is
passed through raw. -/
theorem c9_binary_rendering_witness :
    demoBinDriver (validate_sql "SELECT b FROM t") ()
        = .ok { newDb := (), columns := ["b"], rows := [[Value.vBytes [1, 2, 3]]], rowcount := 0 }
      ∧ execute_query demoBinDriver () "SELECT b FROM t"
          = some (["b"], [[Value.vBytes [1, 2, 3]]]) :=
  ⟨rfl,
    c9_binary_rendering.1 Unit demoBinDriver () "SELECT b FROM t"
      { newDb := (), columns := ["b"], rows := [[Value.vBytes [1, 2, 3]]], rowcount := 0 } rfl⟩


/-! ## Sanitizer: counterexamples -/

theorem c5_counterexample :
    validate_sql "SELECT 1 --x" = "SELECT 1 "
      ∧ validate_sql (validate_sql "SELECT 1 --x") = "SELECT 1;"
      ∧ validate_sql (validate_sql "SELECT 1 --x") ≠ validate_sql "SELECT 1 --x" := by
  decide

theorem c6_counterexample :
    (validate_sql "a;;" = "a;;" ∧ endsWithOne ';' (validate_sql "a;;").data = false)
      ∧ (validate_sql "a; " = "a; " ∧ endsWith ';' (validate_sql "a; ").data = false)
      ∧ (validate_sql "SELECT 1 --x" = "SELECT 1 "
          ∧ endsWith ';' (validate_sql "SELECT 1 --x").data = false)
      ∧ (validate_sql "a//*c*/*b*/;" = "a/*b*/;"
          ∧ hasBlockFragment (validate_sql "a//*c*/*b*/;").data = true) := by
  decide

/-! ## Infix toolkit -/

theorem inf_of_pre {α : Type} {m l : List α} (h : m <+: l) : m <:+: l := by
  obtain ⟨t, rfl⟩ := h
  exact ⟨[], t, by simp⟩

theorem inf_of_suf {α : Type} {m l : List α} (h : m <:+ l) : m <:+: l := by
  obtain ⟨s, rfl⟩ := h
  exact ⟨s, [], by simp⟩

theorem inf_cons {α : Type} {a : α} {m l : List α} (h : m <:+: l) : m <:+: a :: l := by
  obtain ⟨s, t, rfl⟩ := h
  exact ⟨a :: s, t, rfl⟩

theorem rstrip_pre (p : Char → Bool) (l : List Char) : pyRstripBy p l <+: l := by
  have h1 : l.reverse.dropWhile p <:+ l.reverse := List.dropWhile_suffix p
  exact List.reverse_suffix.mp (by simpa [pyRstripBy] using h1)

theorem lstrip_suf (p : Char → Bool) (l : List Char) : pyLstripBy p l <:+ l :=
  List.dropWhile_suffix p

theorem strip_inf (p : Char → Bool) (l : List Char) : pyStripBy p l <:+: l :=
  (inf_of_pre (rstrip_pre p (pyLstripBy p l))).trans (inf_of_suf (lstrip_suf p l))

theorem pair_append_semi {a b : Char} {l : List Char} (hb : b ≠ ';')
    (h : ¬ [a, b] <:+: l) : ¬ [a, b] <:+: l ++ [';'] := by
  rintro ⟨s, t, hst⟩
  rcases List.eq_nil_or_concat t with rfl | ⟨t', c, rfl⟩
  · have hlast := congrArg List.getLast? hst
    simp at hlast
    exact hb hlast
  · rw [List.concat_eq_append] at hst
    have hassoc : s ++ [a, b] ++ (t' ++ [c]) = (s ++ [a, b] ++ t') ++ [c] := by simp
    rw [hassoc] at hst
    obtain ⟨heq, -⟩ := List.append_inj' hst rfl
    exact h ⟨s, t', heq⟩


theorem dropWhile_head_false (p : Char → Bool) (l : List Char) :
    ∀ c, (l.dropWhile p).head? = some c → p c = false := by
  induction l with
  | nil => intro c hc; simp at hc
  | cons a as ih =>
    intro c hc
    rw [List.dropWhile_cons] at hc
    by_cases hp : p a
    · rw [if_pos hp] at hc; exact ih c hc
    · rw [if_neg hp] at hc
      simp at hc
      subst hc
      simpa using hp

theorem dropWhile_eq_self (p : Char → Bool) (l : List Char)
    (h : ∀ c, l.head? = some c → p c = false) : l.dropWhile p = l := by
  cases l with
  | nil => rfl
  | cons a as =>
    rw [List.dropWhile_cons, if_neg]
    simp [h a rfl]

theorem rstripBy_getLast_false (p : Char → Bool) (l : List Char) :
    ∀ c, (pyRstripBy p l).getLast? = some c → p c = false := by
  intro c hc
  unfold pyRstripBy at hc
  rw [List.getLast?_reverse] at hc
  exact dropWhile_head_false p l.reverse c hc

theorem rstripBy_eq_self (p : Char → Bool) (l : List Char)
    (h : ∀ c, l.getLast? = some c → p c = false) : pyRstripBy p l = l := by
  unfold pyRstripBy
  rw [dropWhile_eq_self p l.reverse, List.reverse_reverse]
  intro c hc
  rw [List.head?_reverse] at hc
  exact h c hc

theorem head?_pre {m l : List Char} (h : m <+: l) (hne : m ≠ []) : m.head? = l.head? := by
  obtain ⟨t, rfl⟩ := h
  cases m with
  | nil => exact absurd rfl hne
  | cons a as => rfl

theorem rstripBy_head (p : Char → Bool) (l : List Char) (hne : pyRstripBy p l ≠ []) :
    (pyRstripBy p l).head? = l.head? :=
  head?_pre (rstrip_pre p l) hne

theorem stripBy_head_false (p : Char → Bool) (l : List Char) :
    ∀ c, (pyStripBy p l).head? = some c → p c = false := by
  intro c hc
  unfold pyStripBy at hc
  have hne : pyRstripBy p (pyLstripBy p l) ≠ [] := by
    intro he; rw [he] at hc; simp at hc
  rw [rstripBy_head p _ hne] at hc
  exact dropWhile_head_false p l c hc

theorem stripBy_getLast_false (p : Char → Bool) (l : List Char) :
    ∀ c, (pyStripBy p l).getLast? = some c → p c = false :=
  fun c hc => rstripBy_getLast_false p _ c hc

theorem stripBy_idem (p : Char → Bool) (l : List Char) :
    pyStripBy p (pyStripBy p l) = pyStripBy p l := by
  have h1 : pyLstripBy p (pyStripBy p l) = pyStripBy p l :=
    dropWhile_eq_self p _ (stripBy_head_false p l)
  show pyRstripBy p (pyLstripBy p (pyStripBy p l)) = pyStripBy p l
  rw [h1]
  exact rstripBy_eq_self p _ (stripBy_getLast_false p l)


theorem pair_pre_of_cond {c : Char} {rest : List Char} {a b : Char}
    (hc : c = a ∧ rest.head? = some b) : [a, b] <:+: c :: rest := by
  obtain ⟨rfl, hh⟩ := hc
  cases rest with
  | nil => simp at hh
  | cons d tail =>
    simp at hh
    subst hh
    exact ⟨[], tail, rfl⟩

theorem subBlockF_eq_self (fuel : Nat) : ∀ (l : List Char),
    ¬ ['/', '*'] <:+: l → subBlockF fuel l = l := by
  induction fuel with
  | zero => intro l _; rfl
  | succ f ih =>
    intro l h
    cases l with
    | nil => rfl
    | cons c rest =>
      have hcond : ¬ (c = '/' ∧ rest.head? = some '*') :=
        fun hc => h (pair_pre_of_cond hc)
      have hrest : ¬ ['/', '*'] <:+: rest := fun hc => h (inf_cons hc)
      simp only [subBlockF, if_neg hcond]
      rw [ih rest hrest]

theorem subBlock_eq_self (l : List Char) (h : ¬ ['/', '*'] <:+: l) :
    subBlock l = l :=
  subBlockF_eq_self l.length l h

theorem subLineF_eq_self (fuel : Nat) : ∀ (l : List Char),
    ¬ ['-', '-'] <:+: l → subLineF fuel l = l := by
  induction fuel with
  | zero => intro l _; rfl
  | succ f ih =>
    intro l h
    cases l with
    | nil => rfl
    | cons c rest =>
      have hcond : ¬ (c = '-' ∧ rest.head? = some '-') :=
        fun hc => h (pair_pre_of_cond hc)
      have hrest : ¬ ['-', '-'] <:+: rest := fun hc => h (inf_cons hc)
      simp only [subLineF, if_neg hcond]
      rw [ih rest hrest]

theorem subLine_eq_self (l : List Char) (h : ¬ ['-', '-'] <:+: l) :
    subLine l = l :=
  subLineF_eq_self l.length l h

theorem hasPair_eq_false {a b : Char} {l : List Char} (h : ¬ [a, b] <:+: l) :
    hasPair a b l = false := by
  induction l with
  | nil => rfl
  | cons c rest ih =>
    have hrest : ¬ [a, b] <:+: rest := fun hc => h (inf_cons hc)
    rw [hasPair, ih hrest, Bool.or_false]
    by_cases hca : c = a
    · subst hca
      by_cases hh : rest.head? = some b
      · exact absurd (pair_pre_of_cond ⟨rfl, hh⟩) h
      · simp [hh]
    · simp [hca]

theorem hasBlockFragment_eq_false {l : List Char} (h : ¬ ['/', '*'] <:+: l) :
    hasBlockFragment l = false := by
  induction l with
  | nil => rfl
  | cons c rest ih =>
    have hrest : ¬ ['/', '*'] <:+: rest := fun hc => h (inf_cons hc)
    rw [hasBlockFragment, ih hrest, Bool.or_false]
    by_cases hca : c = '/'
    · subst hca
      by_cases hh : rest.head? = some '*'
      · exact absurd (pair_pre_of_cond ⟨rfl, hh⟩) h
      · simp [hh]
    · simp [hca]


theorem ensure_pair_free {a b : Char} (hb : b ≠ ';') {l : List Char}
    (h : ¬ [a, b] <:+: l) : ¬ [a, b] <:+: ensureSemicolon l := by
  unfold ensureSemicolon
  split
  · exact h
  · exact pair_append_semi hb
      (fun hc => h (hc.trans (inf_of_pre (rstrip_pre pySpace l))))

theorem validate_eq_ensure (x : List Char)
    (h1 : ¬ ['-', '-'] <:+: x) (h2 : ¬ ['/', '*'] <:+: x) :
    validate_sql_chars x = ensureSemicolon (pyStripQuotes x) := by
  have hy0 : pyStripQuotes x <:+: x := strip_inf quoteChar x
  have h1y1 : ¬ ['-', '-'] <:+: ensureSemicolon (pyStripQuotes x) :=
    ensure_pair_free (by decide) (fun hc => h1 (hc.trans hy0))
  have h2y1 : ¬ ['/', '*'] <:+: ensureSemicolon (pyStripQuotes x) :=
    ensure_pair_free (by decide) (fun hc => h2 (hc.trans hy0))
  show subLine (subBlock (ensureSemicolon (pyStripQuotes x))) = _
  rw [subBlock_eq_self _ h2y1, subLine_eq_self _ h1y1]

theorem ensure_head_false (l : List Char) :
    ∀ c, (ensureSemicolon (pyStripQuotes l)).head? = some c → quoteChar c = false := by
  intro c hc
  unfold ensureSemicolon at hc
  split at hc
  · exact stripBy_head_false quoteChar l c hc
  · rcases hm : pyRstrip (pyStripQuotes l) with _ | ⟨d, rest⟩
    · rw [hm] at hc
      simp at hc
      subst hc
      rfl
    · rw [hm] at hc
      have hne : pyRstrip (pyStripQuotes l) ≠ [] := by rw [hm]; simp
      rw [← hm] at hc
      rw [List.head?_append_of_ne_nil _ hne] at hc
      have h2 : (pyStripQuotes l).head? = some c := by
        rw [← rstripBy_head pySpace (pyStripQuotes l) hne]
        exact hc
      exact stripBy_head_false quoteChar l c h2

theorem ensure_getLast_false (l : List Char) :
    ∀ c, (ensureSemicolon (pyStripQuotes l)).getLast? = some c → quoteChar c = false := by
  intro c hc
  unfold ensureSemicolon at hc
  split at hc
  · exact stripBy_getLast_false quoteChar l c hc
  · simp at hc
    subst hc
    rfl

theorem ensure_rstrip_ends (l : List Char) :
    endsWith ';' (pyRstrip (ensureSemicolon l)) = true := by
  unfold ensureSemicolon
  split
  · assumption
  · have hfix : pyRstrip (pyRstrip l ++ [';']) = pyRstrip l ++ [';'] := by
      apply rstripBy_eq_self
      intro c hc
      simp at hc
      subst hc
      rfl
    rw [hfix]
    simp [endsWith]

theorem ensure_fix (x : List Char)
    (h1 : ¬ ['-', '-'] <:+: x) (h2 : ¬ ['/', '*'] <:+: x) :
    validate_sql_chars (ensureSemicolon (pyStripQuotes x))
      = ensureSemicolon (pyStripQuotes x) := by
  have hy0 : pyStripQuotes x <:+: x := strip_inf quoteChar x
  have h1y1 : ¬ ['-', '-'] <:+: ensureSemicolon (pyStripQuotes x) :=
    ensure_pair_free (by decide) (fun hc => h1 (hc.trans hy0))
  have h2y1 : ¬ ['/', '*'] <:+: ensureSemicolon (pyStripQuotes x) :=
    ensure_pair_free (by decide) (fun hc => h2 (hc.trans hy0))
  rw [validate_eq_ensure _ h1y1 h2y1]
  have hquote : pyStripQuotes (ensureSemicolon (pyStripQuotes x))
      = ensureSemicolon (pyStripQuotes x) := by
    have ha : pyLstripBy quoteChar (ensureSemicolon (pyStripQuotes x))
        = ensureSemicolon (pyStripQuotes x) :=
      dropWhile_eq_self _ _ (ensure_head_false x)
    show pyRstripBy quoteChar (pyLstripBy quoteChar (ensureSemicolon (pyStripQuotes x)))
        = ensureSemicolon (pyStripQuotes x)
    rw [ha]
    exact rstripBy_eq_self _ _ (ensure_getLast_false x)
  rw [hquote]
  show (if endsWith ';' (pyRstrip (ensureSemicolon (pyStripQuotes x))) then _ else _) = _
  rw [ensure_rstrip_ends (pyStripQuotes x)]
  simp


theorem endsWithOne_of_rev {d : Char} {rest l : List Char} (h : l.reverse = d :: rest) :
    endsWithOne ';' l = (d == ';' && !(rest.head? == some ';')) := by
  unfold endsWithOne
  rw [h]

theorem ensure_rstrip_one (l : List Char)
    (hss : ¬ [';', ';'] <:+ pyRstrip l) :
    endsWithOne ';' (pyRstrip (ensureSemicolon l)) = true := by
  unfold ensureSemicolon
  split
  case isTrue he =>
    have hlast : (pyRstrip l).getLast? = some ';' := by
      simpa [endsWith] using he
    rcases hrev : (pyRstrip l).reverse with _ | ⟨d, rest⟩
    · rw [List.reverse_eq_nil_iff] at hrev
      rw [hrev] at hlast
      simp at hlast
    · have hd : d = ';' := by
        have hh : (pyRstrip l).reverse.head? = some d := by rw [hrev]; rfl
        rw [List.head?_reverse, hlast] at hh
        injection hh with hh
        exact hh.symm
      subst hd
      rw [endsWithOne_of_rev hrev]
      by_cases hr : rest.head? = some ';'
      · exfalso
        rcases hre : rest with _ | ⟨e, rest2⟩
        · rw [hre] at hr; simp at hr
        · rw [hre] at hr
          simp at hr
          subst hr
          rw [hre] at hrev
          apply hss
          refine ⟨rest2.reverse, ?_⟩
          have h2 := congrArg List.reverse hrev
          rw [List.reverse_reverse] at h2
          rw [h2]
          simp
      · simp [hr]
  case isFalse he =>
    have hfix : pyRstrip (pyRstrip l ++ [';']) = pyRstrip l ++ [';'] := by
      apply rstripBy_eq_self
      intro c hc
      simp at hc
      subst hc
      rfl
    rw [hfix]
    have hrev : (pyRstrip l ++ [';']).reverse = ';' :: (pyRstrip l).reverse := by simp
    rw [endsWithOne_of_rev hrev]
    have hne : ¬ (pyRstrip l).getLast? = some ';' := by
      intro hcon
      exact he (by simp [endsWith, hcon])
    simp [hne]


/-- **C5 (amended)**: the sanitizer is idempotent on every input that
contains neither a `--` nor a `/*` character pair; on general inputs
idempotence fails (see the counterexample), because the comment-removal
passes run *after* the semicolon guarantee and can expose text that a second
pass then normalizes differently. -/
theorem c5_sanitizer_idempotent :
    ∀ (s : String),
      ¬ ['-', '-'] <:+: s.data → ¬ ['/', '*'] <:+: s.data →
      validate_sql (validate_sql s) = validate_sql s := by
  intro s h1 h2
  show String.mk (validate_sql_chars (validate_sql_chars s.data))
      = String.mk (validate_sql_chars s.data)
  rw [validate_eq_ensure s.data h1 h2, ensure_fix s.data h1 h2]

/-- Witness for `c5_sanitizer_idempotent` at the comment-free input
`"SELECT 1"`. -/
theorem c5_sanitizer_idempotent_witness :
    (¬ ['-', '-'] <:+: "SELECT 1".data ∧ ¬ ['/', '*'] <:+: "SELECT 1".data)
      ∧ validate_sql (validate_sql "SELECT 1") = validate_sql "SELECT 1" :=
  ⟨by decide, c5_sanitizer_idempotent "SELECT 1" (by decide) (by decide)⟩

/-- **C6 (amended)**: for every non-empty input containing neither a `--`
nor a `/*` pair, the sanitizer output ends with `;` once trailing whitespace
is discounted, contains no `/*...*/` block-comment fragment and no `--`
fragment; and when the quote-stripped, right-stripped input does not already
end in `;;`, the output ends (again discounting trailing whitespace) with
*exactly one* `;`.  On general inputs each clause can fail (see the
counterexample): a trailing line comment swallows the appended semicolon, a
pre-existing `;;` survives, whitespace after a final `;` is kept, and block
removal can splice a new `/*...*/` fragment. -/
theorem c6_sanitizer_postcondition :
    ∀ (s : String), s ≠ "" →
      ¬ ['-', '-'] <:+: s.data → ¬ ['/', '*'] <:+: s.data →
      endsWith ';' (pyRstrip (validate_sql s).data) = true
        ∧ hasBlockFragment (validate_sql s).data = false
        ∧ hasPair '-' '-' (validate_sql s).data = false
        ∧ (¬ [';', ';'] <:+ pyRstrip (pyStripQuotes s.data) →
            endsWithOne ';' (pyRstrip (validate_sql s).data) = true) := by
  intro s hne h1 h2
  have hy0 : pyStripQuotes s.data <:+: s.data := strip_inf quoteChar s.data
  have h1y1 : ¬ ['-', '-'] <:+: ensureSemicolon (pyStripQuotes s.data) :=
    ensure_pair_free (by decide) (fun hc => h1 (hc.trans hy0))
  have h2y1 : ¬ ['/', '*'] <:+: ensureSemicolon (pyStripQuotes s.data) :=
    ensure_pair_free (by decide) (fun hc => h2 (hc.trans hy0))
  have hval : (validate_sql s).data = ensureSemicolon (pyStripQuotes s.data) :=
    validate_eq_ensure s.data h1 h2
  refine ⟨?_, ?_, ?_, ?_⟩
  · rw [hval]; exact ensure_rstrip_ends (pyStripQuotes s.data)
  · rw [hval]; exact hasBlockFragment_eq_false h2y1
  · rw [hval]; exact hasPair_eq_false h1y1
  · intro hss
    rw [hval]
    exact ensure_rstrip_one (pyStripQuotes s.data) hss

/-- Witness for `c6_sanitizer_postcondition` at the comment-free input
`"SELECT 1"`. -/
theorem c6_sanitizer_postcondition_witness :
    (("SELECT 1" : String) ≠ ""
        ∧ ¬ ['-', '-'] <:+: "SELECT 1".data
        ∧ ¬ ['/', '*'] <:+: "SELECT 1".data)
      ∧ (endsWith ';' (pyRstrip (validate_sql "SELECT 1").data) = true
          ∧ hasBlockFragment (validate_sql "SELECT 1").data = false
          ∧ hasPair '-' '-' (validate_sql "SELECT 1").data = false
          ∧ (¬ [';', ';'] <:+ pyRstrip (pyStripQuotes "SELECT 1".data) →
              endsWithOne ';' (pyRstrip (validate_sql "SELECT 1").data) = true)) :=
  ⟨by decide,
    c6_sanitizer_postcondition "SELECT 1" (by decide) (by decide) (by decide)⟩

end Speak2SQL
